import Mathlib

/-!
Shallow embedding of the task/project tracking backend's data-access layer
(`taskService.ts` and `projectService.ts`) over an explicit document store.

Modelling conventions:
* `ObjectId` values are modelled as `Nat`; the driver-side generation of a
  fresh id on `insertOne` is modelled by a `nextId` counter in the store.
* `ObjectId.isValid` / `new ObjectId(hexString)` are modelled for the
  canonical 24-hex-character string form by `parseObjectId`.
* Dates (`new Date()`) are modelled as `Nat` timestamps; each operation that
  calls the clock receives the current instant as an explicit `now` argument.
* A collection is a `List` of documents in insertion order; `findOne` is the
  first match, `updateOne`/`deleteOne` act on the first match and report
  Mongo's matched/modified/deleted counts (`modifiedCount` is 0 when the
  `$set` leaves the document unchanged).
* A query `{ name: x }` where `x` is JavaScript `undefined` is serialized by
  the driver as `{ name: null }` and matches only documents whose `name` is
  null or missing; both entity models make `name` a required string, so such
  a query matches nothing.  `findTaskByName`/`findProjectByName` take an
  `Option String` and return `none` for an absent query value accordingly.
* Optional document fields are `Option`; an update DTO field that is absent
  (JavaScript `undefined`, removed by the `Object.entries ... filter` step)
  is `none`.  JSON `null` values are not modelled.
* MongoDB's `$regex` with the `i` option is modelled by `regexTest` for
  patterns built from literal characters and the `.` metacharacter; other
  regex metacharacters are treated as literals and theorems about
  `searchTasks` are restricted accordingly.
-/

namespace Manager

/-- Task status enum from `models/Task.ts`. -/
inductive TaskStatus where
  | TODO
  | DONE
deriving DecidableEq, Repr

/-- Persisted Task document shape from `models/Task.ts`. -/
structure Task where
  _id : Nat
  name : String
  status : TaskStatus
  startDate : Nat
  dueDate : Nat
  createdAt : Nat
  updatedAt : Nat
  doneDate : Option Nat
  projectId : Option Nat
deriving DecidableEq, Repr

/-- Persisted Project document shape from `models/Project.ts`. -/
structure Project where
  _id : Nat
  name : String
  description : Option String
  startDate : Nat
  endDate : Nat
  createdAt : Nat
  updatedAt : Nat
deriving DecidableEq, Repr

/-- CreateTaskDto = Omit<Task, '_id' | 'createdAt' | 'updatedAt' | 'doneDate'>. -/
structure CreateTaskDto where
  name : String
  status : TaskStatus
  startDate : Nat
  dueDate : Nat
  projectId : Option Nat
deriving DecidableEq, Repr

/-- UpdateTaskDto: every field may be absent at runtime (the controllers pass
the raw request body, so even `updatedAt`, required by the TypeScript type, can
be missing); `_id` and `createdAt` are excluded by the type. -/
structure UpdateTaskDto where
  name : Option String
  status : Option TaskStatus
  startDate : Option Nat
  dueDate : Option Nat
  doneDate : Option Nat
  projectId : Option Nat
  updatedAt : Option Nat
deriving DecidableEq, Repr

/-- CreateProjectDto = Omit<Project, '_id' | 'createdAt' | 'updatedAt'>. -/
structure CreateProjectDto where
  name : String
  description : Option String
  startDate : Nat
  endDate : Nat
deriving DecidableEq, Repr

/-- UpdateProjectDto: every field may be absent at runtime (see `UpdateTaskDto`). -/
structure UpdateProjectDto where
  name : Option String
  description : Option String
  startDate : Option Nat
  endDate : Option Nat
  updatedAt : Option Nat
deriving DecidableEq, Repr

/-- The document database: the `tasks` and `projects` collections plus the
fresh-`ObjectId` counter used to model driver-side id generation. -/
structure Store where
  tasks : List Task
  projects : List Project
  nextId : Nat
deriving DecidableEq, Repr

/-- Distinguishable failures thrown by the services (spec taxonomy:
InvalidArgument, Conflict, NotFound). -/
inductive ServiceError where
  | invalidTaskId
  | invalidProjectId
  | conflictTask (name : Option String)
  | conflictProject (name : Option String)
  | notFound
deriving DecidableEq, Repr

/-- Numeric value of a hexadecimal digit character. -/
def hexVal (c : Char) : Nat :=
  if c.isDigit then c.toNat - 48
  else if 'a' ≤ c ∧ c ≤ 'f' then c.toNat - 87
  else if 'A' ≤ c ∧ c ≤ 'F' then c.toNat - 55
  else 0

/-- Whether a character is a hexadecimal digit. -/
def isHexChar (c : Char) : Bool :=
  c.isDigit || ('a' ≤ c && c ≤ 'f') || ('A' ≤ c && c ≤ 'F')

/-- `ObjectId.isValid` and `new ObjectId(s)` combined, for the canonical
24-hex-character string form: `some` of the decoded numeric id when the
string is well-formed, `none` otherwise. -/
def parseObjectId (s : String) : Option Nat :=
  if s.length = 24 && s.data.all isHexChar then
    some (s.data.foldl (fun a c => a * 16 + hexVal c) 0)
  else none

/-- `updateOne(filter, {$set})` on a list collection: rewrite the first
document matching `p` with `f` and report `(collection, matchedCount,
modifiedCount)`.  `modifiedCount` is 0 when the rewrite leaves the matched
document unchanged, as in MongoDB. -/
def updateFirst [DecidableEq α] (p : α → Bool) (f : α → α) :
    List α → List α × Nat × Nat
  | [] => ([], 0, 0)
  | x :: xs =>
    if p x then (f x :: xs, 1, if f x = x then 0 else 1)
    else
      let r := updateFirst p f xs
      (x :: r.1, r.2.1, r.2.2)

/-- `deleteOne(filter)` on a list collection: remove the first document
matching `p` and report `(collection, deletedCount)`. -/
def deleteFirst (p : α → Bool) : List α → List α × Nat
  | [] => ([], 0)
  | x :: xs =>
    if p x then (xs, 1)
    else
      let r := deleteFirst p xs
      (x :: r.1, r.2)

/-- `findOne({ name: q })` on the tasks collection, where `q` may be the
JavaScript `undefined` (`none`): an absent query value is serialized as null
and matches no task, since every stored task has a string name. -/
def findTaskByName (ts : List Task) (q : Option String) : Option Task :=
  match q with
  | some n => ts.find? (fun t => t.name == n)
  | none => none

/-- `findOne({ name: q })` on the projects collection; see `findTaskByName`. -/
def findProjectByName (ps : List Project) (q : Option String) : Option Project :=
  match q with
  | some n => ps.find? (fun p => p.name == n)
  | none => none

/-- `getTasks` without a status filter: the whole tasks collection. -/
def getTasks (s : Store) : List Task := s.tasks

/-- `getProjects`: the whole projects collection. -/
def getProjects (s : Store) : List Project := s.projects

/-- `createTask` from `taskService.ts`: reject a duplicate name, otherwise
insert the draft with status forced to TODO, `createdAt`/`updatedAt` set to
the current time and no `doneDate`; return the inserted id. -/
def createTask (s : Store) (taskData : CreateTaskDto) (now : Nat) :
    Except ServiceError Nat × Store :=
  match s.tasks.find? (fun t => t.name == taskData.name) with
  | some _ => (.error (.conflictTask (some taskData.name)), s)
  | none =>
    let taskToInsert : Task :=
      { _id := s.nextId, name := taskData.name, status := .TODO,
        startDate := taskData.startDate, dueDate := taskData.dueDate,
        createdAt := now, updatedAt := now, doneDate := none,
        projectId := taskData.projectId }
    (.ok s.nextId,
      { s with tasks := s.tasks ++ [taskToInsert], nextId := s.nextId + 1 })

/-- The `$set` document built by `updateTask`: `cleanedData` keeps exactly the
fields of the patch that are present (not `undefined`). -/
def applyTaskPatch (t : Task) (p : UpdateTaskDto) : Task :=
  { t with
    name := p.name.getD t.name,
    status := p.status.getD t.status,
    startDate := p.startDate.getD t.startDate,
    dueDate := p.dueDate.getD t.dueDate,
    doneDate := match p.doneDate with | some d => some d | none => t.doneDate,
    projectId := match p.projectId with | some i => some i | none => t.projectId,
    updatedAt := p.updatedAt.getD t.updatedAt }

/-- `updateTask` from `taskService.ts`: reject a malformed id, then reject
whenever `findOne({ name: patch.name })` finds any task, then `$set` the
present patch fields on the task with the given id; return `modifiedCount`. -/
def updateTask (s : Store) (id : String) (updateData : UpdateTaskDto) :
    Except ServiceError Nat × Store :=
  match parseObjectId id with
  | none => (.error .invalidTaskId, s)
  | some taskId =>
    match findTaskByName s.tasks updateData.name with
    | some _ => (.error (.conflictTask updateData.name), s)
    | none =>
      let r := updateFirst (fun t => t._id == taskId)
        (fun t => applyTaskPatch t updateData) s.tasks
      (.ok r.2.2, { s with tasks := r.1 })

/-- `deleteTask` from `taskService.ts`. -/
def deleteTask (s : Store) (id : String) : Except ServiceError Nat × Store :=
  match parseObjectId id with
  | none => (.error .invalidTaskId, s)
  | some taskId =>
    let r := deleteFirst (fun t => t._id == taskId) s.tasks
    (.ok r.2, { s with tasks := r.1 })

/-- The `$set` document built by `updateTaskStatus`: status and `updatedAt`
always; `doneDate := now` when the new status is DONE; `startDate := now`
when it is TODO. -/
def applyStatus (status : TaskStatus) (now : Nat) (t : Task) : Task :=
  let t1 := { t with status := status, updatedAt := now }
  let t2 := if status = .DONE then { t1 with doneDate := some now } else t1
  if status = .TODO then { t2 with startDate := now } else t2

/-- `updateTaskStatus` from `taskService.ts`: `$set` status and `updatedAt`;
additionally `doneDate := now` when the new status is DONE and
`startDate := now` when it is TODO.  Return `modifiedCount`. -/
def updateTaskStatus (s : Store) (id : String) (status : TaskStatus) (now : Nat) :
    Except ServiceError Nat × Store :=
  match parseObjectId id with
  | none => (.error .invalidTaskId, s)
  | some taskId =>
    let r := updateFirst (fun t => t._id == taskId) (applyStatus status now) s.tasks
    (.ok r.2.2, { s with tasks := r.1 })

/-- `assignTaskToProject` from `taskService.ts`: validate both ids, require
the project to exist, then `$set` the task's `projectId`; return
`matchedCount`. -/
def assignTaskToProject (s : Store) (taskId projectId : String) :
    Except ServiceError Nat × Store :=
  match parseObjectId projectId with
  | none => (.error .invalidProjectId, s)
  | some projectObjectId =>
    match parseObjectId taskId with
    | none => (.error .invalidTaskId, s)
    | some taskObjectId =>
      match s.projects.find? (fun p => p._id == projectObjectId) with
      | none => (.error .notFound, s)
      | some _ =>
        let r := updateFirst (fun t => t._id == taskObjectId)
          (fun t => { t with projectId := some projectObjectId }) s.tasks
        (.ok r.2.1, { s with tasks := r.1 })

/-- `createProject` from `projectService.ts`. -/
def createProject (s : Store) (projectData : CreateProjectDto) (now : Nat) :
    Except ServiceError Nat × Store :=
  match s.projects.find? (fun p => p.name == projectData.name) with
  | some _ => (.error (.conflictProject (some projectData.name)), s)
  | none =>
    let projectToInsert : Project :=
      { _id := s.nextId, name := projectData.name,
        description := projectData.description,
        startDate := projectData.startDate, endDate := projectData.endDate,
        createdAt := now, updatedAt := now }
    (.ok s.nextId,
      { s with projects := s.projects ++ [projectToInsert],
               nextId := s.nextId + 1 })

/-- The `$set` document built by `updateProject` (`cleanedUpdateData`). -/
def applyProjectPatch (q : Project) (p : UpdateProjectDto) : Project :=
  { q with
    name := p.name.getD q.name,
    description := match p.description with | some d => some d | none => q.description,
    startDate := p.startDate.getD q.startDate,
    endDate := p.endDate.getD q.endDate,
    updatedAt := p.updatedAt.getD q.updatedAt }

/-- `updateProject` from `projectService.ts`: same shape as `updateTask`. -/
def updateProject (s : Store) (id : String) (updateData : UpdateProjectDto) :
    Except ServiceError Nat × Store :=
  match parseObjectId id with
  | none => (.error .invalidProjectId, s)
  | some projectId =>
    match findProjectByName s.projects updateData.name with
    | some _ => (.error (.conflictProject updateData.name), s)
    | none =>
      let r := updateFirst (fun p => p._id == projectId)
        (fun p => applyProjectPatch p updateData) s.projects
      (.ok r.2.2, { s with projects := r.1 })

/-- `deleteProject` from `projectService.ts`: delete the project; when a
document was actually deleted, `updateMany` unsets `projectId` on every task
referencing it; return `deletedCount`. -/
def deleteProject (s : Store) (id : String) : Except ServiceError Nat × Store :=
  match parseObjectId id with
  | none => (.error .invalidProjectId, s)
  | some projectId =>
    let r := deleteFirst (fun p => p._id == projectId) s.projects
    let s1 := { s with projects := r.1 }
    if r.2 ≠ 0 then
      (.ok r.2,
        { s1 with tasks := s1.tasks.map (fun t =>
            if t.projectId == some projectId then { t with projectId := none }
            else t) })
    else (.ok r.2, s1)

/-- Regex prefix match at the head of the text for the modelled pattern
fragment: `.` matches any single character, every other pattern character
matches itself up to ASCII case (`i` option). -/
def regexHere : List Char → List Char → Bool
  | [], _ => true
  | _ :: _, [] => false
  | p :: ps, c :: cs =>
    (p = '.' || p.toLower = c.toLower) && regexHere ps cs

/-- Unanchored regex search: the pattern matches at some position of the
text.  Models `{$regex: pat, $options: 'i'}` for the pattern fragment of
`regexHere`. -/
def regexTest (pat : List Char) : List Char → Bool
  | [] => regexHere pat []
  | c :: cs => regexHere pat (c :: cs) || regexTest pat cs

/-- `searchTasks` from `taskService.ts`: the query string is used as a
case-insensitive regex pattern against `name`. -/
def searchTasks (s : Store) (name : String) : List Task :=
  s.tasks.filter (fun t => regexTest name.data t.name.data)

/-- Case-insensitive literal prefix match (the spec's wording of matching). -/
def headMatchCI : List Char → List Char → Bool
  | [], _ => true
  | _ :: _, [] => false
  | p :: ps, c :: cs => (p.toLower = c.toLower) && headMatchCI ps cs

/-- Case-insensitive substring containment, following the spec's words
"case-insensitive substring match against name". -/
def containsCI (need : List Char) : List Char → Bool
  | [] => headMatchCI need []
  | c :: cs => headMatchCI need (c :: cs) || containsCI need cs

/-- PCRE metacharacters relevant to `$regex` patterns. -/
def isRegexMeta (c : Char) : Bool :=
  c = '.' || c = '^' || c = '$' || c = '*' || c = '+' || c = '?' ||
  c = '(' || c = ')' || c = '[' || c = ']' || c = '\x7b' || c = '\x7d' ||
  c = '|' || c = '\\'

deriving instance DecidableEq for Except

/-! Concrete sample data used by witnesses and counterexamples. -/

/-- A stored task with id 1 referencing project 7. -/
def sampleTask : Task :=
  { _id := 1, name := "alpha", status := .TODO, startDate := 10, dueDate := 20,
    createdAt := 0, updatedAt := 3, doneDate := none, projectId := some 7 }

/-- A stored project with id 7. -/
def sampleProject : Project :=
  { _id := 7, name := "proj", description := none, startDate := 0,
    endDate := 100, createdAt := 0, updatedAt := 0 }

/-- The empty store. -/
def store0 : Store := { tasks := [], projects := [], nextId := 0 }

/-- A store holding `sampleTask` and `sampleProject`. -/
def store1 : Store := { tasks := [sampleTask], projects := [sampleProject], nextId := 8 }

/-- Canonical id string for id 1. -/
def idStr1 : String := "000000000000000000000001"

/-- Canonical id string for id 7. -/
def idStr7 : String := "000000000000000000000007"

/-- Canonical id string for id 2 (no stored document has id 2). -/
def idStr2 : String := "000000000000000000000002"

/-- A task patch setting only `startDate`. -/
def patchStart : UpdateTaskDto :=
  { name := none, status := none, startDate := some 99, dueDate := none,
    doneDate := none, projectId := none, updatedAt := none }

/-- A task patch setting only `updatedAt` (to 7). -/
def patchUpd7 : UpdateTaskDto :=
  { name := none, status := none, startDate := none, dueDate := none,
    doneDate := none, projectId := none, updatedAt := some 7 }

/-! Helper lemmas about the collection primitives. -/

/-- When the rewriting function preserves the filter, `updateOne` rewrites
exactly the document that `findOne` locates. -/
theorem find?_updateFirst [DecidableEq α] (p : α → Bool) (f : α → α)
    (hf : ∀ a, p (f a) = p a) (l : List α) :
    (updateFirst p f l).1.find? p = (l.find? p).map f := by
  induction l with
  | nil => simp [updateFirst]
  | cons x xs ih =>
    by_cases hx : p x = true
    · simp [updateFirst, hx, List.find?_cons_of_pos, hf, hx]
    · have h2 : (updateFirst p f (x :: xs)).1 = x :: (updateFirst p f xs).1 := by
        simp [updateFirst, hx]
      have h1 : List.find? p (x :: xs) = List.find? p xs :=
        List.find?_cons_of_neg _ (by simp [hx])
      rw [h2, List.find?_cons_of_neg _ (by simp [hx]), ih, h1]

/-- `updateOne` on a collection with no matching document changes nothing and
reports zero matched and modified documents. -/
theorem updateFirst_of_find?_none [DecidableEq α] (p : α → Bool) (f : α → α)
    (l : List α) (h : l.find? p = none) : updateFirst p f l = (l, 0, 0) := by
  induction l with
  | nil => simp [updateFirst]
  | cons x xs ih =>
    rw [List.find?_eq_none] at h
    have hx : ¬ p x = true := h x (by simp)
    have hxs : xs.find? p = none := by
      rw [List.find?_eq_none]; exact fun a ha => h a (by simp [ha])
    simp [updateFirst, hx, ih hxs]

/-- `updateOne`'s `matchedCount` is 1 precisely when `findOne` succeeds. -/
theorem matched_updateFirst [DecidableEq α] (p : α → Bool) (f : α → α)
    (l : List α) :
    (updateFirst p f l).2.1 = if (l.find? p).isSome then 1 else 0 := by
  induction l with
  | nil => simp [updateFirst]
  | cons x xs ih =>
    by_cases hx : p x = true
    · simp [updateFirst, hx, List.find?_cons_of_pos]
    · rw [List.find?_cons_of_neg _ (by simp [hx])]
      simp [updateFirst, hx, ih]

/-- `deleteOne` on a collection with no matching document changes nothing. -/
theorem deleteFirst_of_find?_none (p : α → Bool) (l : List α)
    (h : l.find? p = none) : deleteFirst p l = (l, 0) := by
  induction l with
  | nil => simp [deleteFirst]
  | cons x xs ih =>
    rw [List.find?_eq_none] at h
    have hx : ¬ p x = true := h x (by simp)
    have hxs : xs.find? p = none := by
      rw [List.find?_eq_none]; exact fun a ha => h a (by simp [ha])
    simp [deleteFirst, hx, ih hxs]

/-- `deleteOne` reports one deleted document when `findOne` succeeds. -/
theorem deleteFirst_of_find?_some (p : α → Bool) (l : List α)
    (h : (l.find? p).isSome) : (deleteFirst p l).2 = 1 := by
  induction l with
  | nil => simp at h
  | cons x xs ih =>
    by_cases hx : p x = true
    · simp [deleteFirst, hx]
    · rw [List.find?_cons_of_neg _ (by simp [hx])] at h
      simp [deleteFirst, hx, ih h]

/-- The collection left by `deleteOne` is a sublist of the original. -/
theorem deleteFirst_sublist (p : α → Bool) (l : List α) :
    (deleteFirst p l).1.Sublist l := by
  induction l with
  | nil => simp [deleteFirst]
  | cons x xs ih =>
    by_cases hx : p x = true
    · simp [deleteFirst, hx]
    · simpa [deleteFirst, hx] using ih.cons₂ x

/-- After `deleteOne` by a key that is unique in the collection, no remaining
document has that key. -/
theorem deleteFirst_no_key (g : α → Nat) (k : Nat) (l : List α)
    (hnodup : (l.map g).Nodup) :
    ∀ a ∈ (deleteFirst (fun x => g x == k) l).1, g a ≠ k := by
  induction l with
  | nil => simp [deleteFirst]
  | cons x xs ih =>
    rw [List.map_cons, List.nodup_cons] at hnodup
    by_cases hx : (g x == k) = true
    · have h2 : (deleteFirst (fun x => g x == k) (x :: xs)).1 = xs := by
        simp [deleteFirst, hx]
      rw [h2]
      intro a ha hak
      exact hnodup.1 (List.mem_map.mpr ⟨a, ha, by rw [hak, ← eq_of_beq hx]⟩)
    · have h2 : (deleteFirst (fun x => g x == k) (x :: xs)).1 =
          x :: (deleteFirst (fun x => g x == k) xs).1 := by
        simp [deleteFirst, hx]
      rw [h2]
      intro a ha
      rcases List.mem_cons.mp ha with h | h
      · subst h; simpa using hx
      · exact ih hnodup.2 a h

/-! C1 -/

/-- C1: `createTask` fails with Conflict when some stored task already has
exactly the draft's name; otherwise it appends a new task whose status is
TODO regardless of the draft's status, whose `createdAt` and `updatedAt` are
the current time and whose `doneDate` is absent, and returns its id. -/
theorem C1_createTask_spec (s : Store) (dto : CreateTaskDto) (now : Nat) :
    ((∃ t ∈ s.tasks, t.name = dto.name) →
      createTask s dto now = (.error (.conflictTask (some dto.name)), s)) ∧
    ((∀ t ∈ s.tasks, t.name ≠ dto.name) →
      ∃ nt : Task,
        createTask s dto now =
          (.ok nt._id,
            { s with tasks := s.tasks ++ [nt], nextId := s.nextId + 1 }) ∧
        nt._id = s.nextId ∧ nt.status = .TODO ∧ nt.createdAt = now ∧
        nt.updatedAt = now ∧ nt.doneDate = none ∧ nt.name = dto.name ∧
        nt.startDate = dto.startDate ∧ nt.dueDate = dto.dueDate ∧
        nt.projectId = dto.projectId) := by
  constructor
  · rintro ⟨t, ht, hname⟩
    have hsome : (s.tasks.find? (fun t => t.name == dto.name)).isSome := by
      rw [List.find?_isSome]
      exact ⟨t, ht, by simp [hname]⟩
    rcases Option.isSome_iff_exists.mp hsome with ⟨u, hu⟩
    simp [createTask, hu]
  · intro h
    have hf : s.tasks.find? (fun t => t.name == dto.name) = none := by
      rw [List.find?_eq_none]
      intro t ht
      simp [h t ht]
    refine ⟨{ _id := s.nextId, name := dto.name, status := .TODO,
              startDate := dto.startDate, dueDate := dto.dueDate,
              createdAt := now, updatedAt := now, doneDate := none,
              projectId := dto.projectId }, ?_, rfl, rfl, rfl, rfl, rfl, rfl,
            rfl, rfl, rfl⟩
    simp [createTask, hf]

/-- C1 witness: creating "design" (draft status DONE) in the empty store
succeeds with the asserted shape. -/
theorem C1_createTask_witness :
    ∃ nt : Task,
      createTask store0
          { name := "design", status := .DONE, startDate := 1, dueDate := 2,
            projectId := none } 5 =
        (.ok nt._id,
          { store0 with tasks := store0.tasks ++ [nt],
                        nextId := store0.nextId + 1 }) ∧
      nt._id = store0.nextId ∧ nt.status = .TODO ∧ nt.createdAt = 5 ∧
      nt.updatedAt = 5 ∧ nt.doneDate = none ∧ nt.name = "design" ∧
      nt.startDate = 1 ∧ nt.dueDate = 2 ∧ nt.projectId = none :=
  (C1_createTask_spec store0
    { name := "design", status := .DONE, startDate := 1, dueDate := 2,
      projectId := none } 5).2 (by decide)

/-! C2 -/

/-- C2 counterexample: `updateTask` does not stamp `updatedAt` with the
server time.  A patch touching only `startDate` leaves the stored
`updatedAt` at its old value 3, and a patch carrying `updatedAt := 7` writes
exactly 7 — the repository never overwrites `updatedAt` with the current
time (in fact `updateTask`/`updateProject` never read the clock at all). -/
theorem C2_counterexample :
    (updateTask store1 idStr1 patchStart).1 = .ok 1 ∧
    (updateTask store1 idStr1 patchStart).2.tasks.map Task.updatedAt = [3] ∧
    (updateTask store1 idStr1 patchUpd7).1 = .ok 1 ∧
    (updateTask store1 idStr1 patchUpd7).2.tasks.map Task.updatedAt = [7] := by
  decide

/-- C2 (amended): for `updateTask`/`updateProject` with a well-formed id that
does not fail with Conflict, only the fields present in the patch are
written and every absent field (including `createdAt` and `_id`, which the
DTO cannot carry) keeps its stored value; `updatedAt` is treated like any
other patch field — it changes only when the patch carries an `updatedAt`
value, and then takes the patch's value, never a server-generated time. -/
theorem C2_partial_update_spec (s : Store) (id : String) (oid : Nat)
    (pt : UpdateTaskDto) (pp : UpdateProjectDto)
    (hid : parseObjectId id = some oid) :
    (∀ t, findTaskByName s.tasks pt.name = none →
      s.tasks.find? (fun u => u._id == oid) = some t →
      ∃ m s', updateTask s id pt = (.ok m, s') ∧ s'.projects = s.projects ∧
        s'.tasks.find? (fun u => u._id == oid) =
          some { t with
            name := pt.name.getD t.name,
            status := pt.status.getD t.status,
            startDate := pt.startDate.getD t.startDate,
            dueDate := pt.dueDate.getD t.dueDate,
            doneDate := match pt.doneDate with
              | some d => some d | none => t.doneDate,
            projectId := match pt.projectId with
              | some i => some i | none => t.projectId,
            updatedAt := pt.updatedAt.getD t.updatedAt }) ∧
    (∀ q, findProjectByName s.projects pp.name = none →
      s.projects.find? (fun u => u._id == oid) = some q →
      ∃ m s', updateProject s id pp = (.ok m, s') ∧ s'.tasks = s.tasks ∧
        s'.projects.find? (fun u => u._id == oid) =
          some { q with
            name := pp.name.getD q.name,
            description := match pp.description with
              | some d => some d | none => q.description,
            startDate := pp.startDate.getD q.startDate,
            endDate := pp.endDate.getD q.endDate,
            updatedAt := pp.updatedAt.getD q.updatedAt }) := by
  constructor
  · intro t hnone hfind
    refine ⟨(updateFirst (fun u => u._id == oid)
        (fun u => applyTaskPatch u pt) s.tasks).2.2,
      { s with tasks := (updateFirst (fun u => u._id == oid)
          (fun u => applyTaskPatch u pt) s.tasks).1 },
      by simp [updateTask, hid, hnone], rfl, ?_⟩
    have hpres : ∀ a : Task,
        ((applyTaskPatch a pt)._id == oid) = (a._id == oid) := fun a => rfl
    rw [show ({ s with tasks := (updateFirst (fun u => u._id == oid)
          (fun u => applyTaskPatch u pt) s.tasks).1 } : Store).tasks =
        (updateFirst (fun u => u._id == oid)
          (fun u => applyTaskPatch u pt) s.tasks).1 from rfl,
      find?_updateFirst _ _ hpres, hfind]
    rfl
  · intro q hnone hfind
    refine ⟨(updateFirst (fun u => u._id == oid)
        (fun u => applyProjectPatch u pp) s.projects).2.2,
      { s with projects := (updateFirst (fun u => u._id == oid)
          (fun u => applyProjectPatch u pp) s.projects).1 },
      by simp [updateProject, hid, hnone], rfl, ?_⟩
    have hpres : ∀ a : Project,
        ((applyProjectPatch a pp)._id == oid) = (a._id == oid) := fun a => rfl
    rw [show ({ s with projects := (updateFirst (fun u => u._id == oid)
          (fun u => applyProjectPatch u pp) s.projects).1 } : Store).projects =
        (updateFirst (fun u => u._id == oid)
          (fun u => applyProjectPatch u pp) s.projects).1 from rfl,
      find?_updateFirst _ _ hpres, hfind]
    rfl

/-- An all-absent project patch. -/
def ppNone : UpdateProjectDto :=
  { name := none, description := none, startDate := none, endDate := none,
    updatedAt := none }

/-- C2 witness: patching only `startDate` on the stored task keeps every
other field, `updatedAt` included, at its stored value. -/
theorem C2_partial_update_witness :
    ∃ m s', updateTask store1 idStr1 patchStart = (.ok m, s') ∧
      s'.projects = store1.projects ∧
      s'.tasks.find? (fun u => u._id == 1) =
        some { sampleTask with
          name := patchStart.name.getD sampleTask.name,
          status := patchStart.status.getD sampleTask.status,
          startDate := patchStart.startDate.getD sampleTask.startDate,
          dueDate := patchStart.dueDate.getD sampleTask.dueDate,
          doneDate := match patchStart.doneDate with
            | some d => some d | none => sampleTask.doneDate,
          projectId := match patchStart.projectId with
            | some i => some i | none => sampleTask.projectId,
          updatedAt := patchStart.updatedAt.getD sampleTask.updatedAt } :=
  (C2_partial_update_spec store1 idStr1 1 patchStart ppNone (by decide)).1
    sampleTask rfl (by decide)

/-! C3 -/

/-- C3: the duplicate-name check in `updateTask`/`updateProject` is
unconditional — for every patch (for every well-formed id) the operation
looks up a stored document whose name equals `patch.name` and fails with
Conflict whenever one exists, even when the patch does not change the name;
when the patch has no name field the lookup value is absent (serialized as
null) and finds no match, so the update proceeds. -/
theorem C3_unconditional_duplicate_check (s : Store) (id : String) (oid : Nat)
    (pt : UpdateTaskDto) (pp : UpdateProjectDto)
    (hid : parseObjectId id = some oid) :
    ((∃ t ∈ s.tasks, some t.name = pt.name) →
      updateTask s id pt = (.error (.conflictTask pt.name), s)) ∧
    (pt.name = none →
      findTaskByName s.tasks pt.name = none ∧
      ∃ m s', updateTask s id pt = (.ok m, s')) ∧
    ((∃ q ∈ s.projects, some q.name = pp.name) →
      updateProject s id pp = (.error (.conflictProject pp.name), s)) ∧
    (pp.name = none →
      findProjectByName s.projects pp.name = none ∧
      ∃ m s', updateProject s id pp = (.ok m, s')) := by
  refine ⟨?_, ?_, ?_, ?_⟩
  · rintro ⟨t, ht, hname⟩
    have hu : ∃ u, findTaskByName s.tasks pt.name = some u := by
      rw [← hname]
      exact Option.isSome_iff_exists.mp (List.find?_isSome.mpr ⟨t, ht, by simp⟩)
    rcases hu with ⟨u, hu⟩
    simp [updateTask, hid, hu]
  · intro hn
    have hnone : findTaskByName s.tasks pt.name = none := by rw [hn]; rfl
    exact ⟨hnone, (updateFirst (fun u => u._id == oid)
        (fun u => applyTaskPatch u pt) s.tasks).2.2,
      { s with tasks := (updateFirst (fun u => u._id == oid)
          (fun u => applyTaskPatch u pt) s.tasks).1 },
      by simp [updateTask, hid, hnone]⟩
  · rintro ⟨q, hq, hname⟩
    have hu : ∃ u, findProjectByName s.projects pp.name = some u := by
      rw [← hname]
      exact Option.isSome_iff_exists.mp (List.find?_isSome.mpr ⟨q, hq, by simp⟩)
    rcases hu with ⟨u, hu⟩
    simp [updateProject, hid, hu]
  · intro hn
    have hnone : findProjectByName s.projects pp.name = none := by rw [hn]; rfl
    exact ⟨hnone, (updateFirst (fun u => u._id == oid)
        (fun u => applyProjectPatch u pp) s.projects).2.2,
      { s with projects := (updateFirst (fun u => u._id == oid)
          (fun u => applyProjectPatch u pp) s.projects).1 },
      by simp [updateProject, hid, hnone]⟩

/-- A task patch whose only present field is `name := "alpha"` — the stored
task's own current name. -/
def ptAlpha : UpdateTaskDto :=
  { name := some "alpha", status := none, startDate := none, dueDate := none,
    doneDate := none, projectId := none, updatedAt := none }

/-- C3 witness: a patch carrying the existing name "alpha" is rejected with
Conflict even though it changes nothing, and a patch with no name field
passes the duplicate check and succeeds. -/
theorem C3_witness :
    updateTask store1 idStr1 ptAlpha =
      (.error (.conflictTask (some "alpha")), store1) ∧
    (∃ m s', updateTask store1 idStr1 patchStart = (.ok m, s')) :=
  ⟨(C3_unconditional_duplicate_check store1 idStr1 1 ptAlpha ppNone
      (by decide)).1 ⟨sampleTask, by decide, by decide⟩,
   ((C3_unconditional_duplicate_check store1 idStr1 1 patchStart ppNone
      (by decide)).2.1 rfl).2⟩

/-! C4 -/

/-- C4: for every well-formed task id, `updateTaskStatus(id, DONE)` sets
status, `updatedAt` and `doneDate` to the current time without altering
`startDate`, and `updateTaskStatus(id, TODO)` sets status, `updatedAt` and
`startDate` to the current time leaving `doneDate` untouched (it is never
cleared); both transitions succeed with no restriction on the prior
status. -/
theorem C4_updateTaskStatus_spec (s : Store) (id : String) (oid : Nat)
    (st : TaskStatus) (now : Nat) (t : Task)
    (hid : parseObjectId id = some oid)
    (hfind : s.tasks.find? (fun u => u._id == oid) = some t) :
    ∃ m s', updateTaskStatus s id st now = (.ok m, s') ∧
      s'.projects = s.projects ∧
      ∃ t', s'.tasks.find? (fun u => u._id == oid) = some t' ∧
        t'.status = st ∧ t'.updatedAt = now ∧
        t'.name = t.name ∧ t'.dueDate = t.dueDate ∧
        t'.createdAt = t.createdAt ∧ t'.projectId = t.projectId ∧
        (st = .DONE → t'.doneDate = some now ∧ t'.startDate = t.startDate) ∧
        (st = .TODO → t'.startDate = now ∧ t'.doneDate = t.doneDate) := by
  refine ⟨(updateFirst (fun u => u._id == oid) (applyStatus st now)
      s.tasks).2.2,
    { s with tasks := (updateFirst (fun u => u._id == oid)
        (applyStatus st now) s.tasks).1 },
    by simp [updateTaskStatus, hid], rfl, applyStatus st now t, ?_,
    ?_, ?_, ?_, ?_, ?_, ?_, ?_, ?_⟩
  · have hpres : ∀ a : Task,
        ((applyStatus st now a)._id == oid) = (a._id == oid) := by
      intro a
      cases st <;> rfl
    rw [show ({ s with tasks := (updateFirst (fun u => u._id == oid)
          (applyStatus st now) s.tasks).1 } : Store).tasks =
        (updateFirst (fun u => u._id == oid) (applyStatus st now) s.tasks).1
      from rfl, find?_updateFirst _ _ hpres, hfind]
    rfl
  all_goals cases st <;> simp [applyStatus]

/-- C4 witness: marking the stored TODO task DONE at time 42 stamps
status/updatedAt/doneDate and keeps its startDate. -/
theorem C4_updateTaskStatus_witness :
    ∃ m s', updateTaskStatus store1 idStr1 .DONE 42 = (.ok m, s') ∧
      s'.projects = store1.projects ∧
      ∃ t', s'.tasks.find? (fun u => u._id == 1) = some t' ∧
        t'.status = .DONE ∧ t'.updatedAt = 42 ∧
        t'.name = sampleTask.name ∧ t'.dueDate = sampleTask.dueDate ∧
        t'.createdAt = sampleTask.createdAt ∧
        t'.projectId = sampleTask.projectId ∧
        (TaskStatus.DONE = TaskStatus.DONE →
          t'.doneDate = some 42 ∧ t'.startDate = sampleTask.startDate) ∧
        (TaskStatus.DONE = TaskStatus.TODO →
          t'.startDate = 42 ∧ t'.doneDate = sampleTask.doneDate) :=
  C4_updateTaskStatus_spec store1 idStr1 1 .DONE 42 sampleTask (by decide) rfl

/-! C5 -/

/-- C5: for a well-formed project id (with the collection's ids pairwise
distinct, as MongoDB guarantees for `_id`), `deleteProject` removes the
project and, exactly when a document was actually deleted, clears
`projectId` on every task that referenced it — afterwards no task references
the deleted id, non-referencing tasks are untouched — returning the deleted
count, which is 0 when no such project exists, in which case the whole store
is untouched. -/
theorem C5_deleteProject_spec (s : Store) (id : String) (oid : Nat)
    (hid : parseObjectId id = some oid)
    (hnodup : (s.projects.map Project._id).Nodup) :
    ((∀ q ∈ s.projects, q._id ≠ oid) → deleteProject s id = (.ok 0, s)) ∧
    ((∃ q ∈ s.projects, q._id = oid) →
      ∃ s', deleteProject s id = (.ok 1, s') ∧
        (∀ q ∈ getProjects s', q._id ≠ oid) ∧
        (∀ u ∈ s'.tasks, u.projectId ≠ some oid) ∧
        (∀ u ∈ s.tasks, u.projectId ≠ some oid → u ∈ s'.tasks) ∧
        (∀ u ∈ s.tasks, u.projectId = some oid →
          { u with projectId := none } ∈ s'.tasks) ∧
        s'.tasks.length = s.tasks.length) := by
  constructor
  · intro h
    have hfind : s.projects.find? (fun p => p._id == oid) = none := by
      rw [List.find?_eq_none]
      intro q hq
      simp [h q hq]
    have hdel := deleteFirst_of_find?_none (fun p => p._id == oid) s.projects hfind
    simp [deleteProject, hid, hdel]
  · rintro ⟨q, hq, hqid⟩
    have hsome : (s.projects.find? (fun p => p._id == oid)).isSome :=
      List.find?_isSome.mpr ⟨q, hq, by simp [hqid]⟩
    have hdel := deleteFirst_of_find?_some (fun p => p._id == oid) s.projects hsome
    refine ⟨{ s with
        projects := (deleteFirst (fun p => p._id == oid) s.projects).1,
        tasks := s.tasks.map (fun t =>
          if t.projectId == some oid then { t with projectId := none }
          else t) }, ?_, ?_, ?_, ?_, ?_, ?_⟩
    · simp only [deleteProject, hid, hdel]
      simp
    · intro r hr
      exact deleteFirst_no_key Project._id oid s.projects hnodup r hr
    · intro u hu
      rcases List.mem_map.mp hu with ⟨a, _, ha⟩
      subst ha
      by_cases hp : a.projectId = some oid <;> simp [hp]
    · intro u hu hup
      refine List.mem_map.mpr ⟨u, hu, ?_⟩
      simp [hup]
    · intro u hu hup
      refine List.mem_map.mpr ⟨u, hu, ?_⟩
      simp [hup]
    · simp

/-- C5 witness: deleting project 7 from `store1` removes it and unlinks the
referencing task. -/
theorem C5_deleteProject_witness :
    ∃ s', deleteProject store1 idStr7 = (.ok 1, s') ∧
      (∀ q ∈ getProjects s', q._id ≠ 7) ∧
      (∀ u ∈ s'.tasks, u.projectId ≠ some 7) ∧
      (∀ u ∈ store1.tasks, u.projectId ≠ some 7 → u ∈ s'.tasks) ∧
      (∀ u ∈ store1.tasks, u.projectId = some 7 →
        { u with projectId := none } ∈ s'.tasks) ∧
      s'.tasks.length = store1.tasks.length :=
  (C5_deleteProject_spec store1 idStr7 7 (by decide) (by decide)).2
    ⟨sampleProject, by decide, rfl⟩

/-! C6 -/

/-- C6: for well-formed ids, `assignTaskToProject` fails with NotFound and
leaves the store untouched when no project with the given id exists; when
the project exists it sets the task's `projectId` and returns the match
count — 0 when the task does not exist (tasks untouched), 1 when it does,
including when the task already carries that same `projectId`. -/
theorem C6_assignTaskToProject_spec (s : Store) (taskId projectId : String)
    (tid pid : Nat)
    (htid : parseObjectId taskId = some tid)
    (hpid : parseObjectId projectId = some pid) :
    ((∀ q ∈ s.projects, q._id ≠ pid) →
      assignTaskToProject s taskId projectId = (.error .notFound, s)) ∧
    ((∃ q ∈ s.projects, q._id = pid) →
      ((s.tasks.find? (fun u => u._id == tid) = none →
        assignTaskToProject s taskId projectId = (.ok 0, s)) ∧
       (∀ t, s.tasks.find? (fun u => u._id == tid) = some t →
        ∃ s', assignTaskToProject s taskId projectId = (.ok 1, s') ∧
          s'.projects = s.projects ∧
          s'.tasks.find? (fun u => u._id == tid) =
            some { t with projectId := some pid }))) := by
  constructor
  · intro h
    have hfind : s.projects.find? (fun p => p._id == pid) = none := by
      rw [List.find?_eq_none]
      intro q hq
      simp [h q hq]
    simp [assignTaskToProject, htid, hpid, hfind]
  · rintro ⟨q, hq, hqid⟩
    have hsome : (s.projects.find? (fun p => p._id == pid)).isSome :=
      List.find?_isSome.mpr ⟨q, hq, by simp [hqid]⟩
    rcases Option.isSome_iff_exists.mp hsome with ⟨u, hu⟩
    constructor
    · intro hnone
      have h0 := updateFirst_of_find?_none (fun u => u._id == tid)
        (fun t => { t with projectId := some pid }) s.tasks hnone
      simp [assignTaskToProject, htid, hpid, hu, h0]
    · intro t ht
      have hm := matched_updateFirst (fun u => u._id == tid)
        (fun t => { t with projectId := some pid }) s.tasks
      rw [ht] at hm
      simp only [Option.isSome_some, if_true] at hm
      refine ⟨{ s with tasks := (updateFirst (fun u => u._id == tid)
          (fun t => { t with projectId := some pid }) s.tasks).1 }, ?_, rfl, ?_⟩
      · simp [assignTaskToProject, htid, hpid, hu, hm]
      · have hpres : ∀ a : Task,
            (({ a with projectId := some pid } : Task)._id == tid) =
              (a._id == tid) := fun a => rfl
        rw [show ({ s with tasks := (updateFirst (fun u => u._id == tid)
              (fun t => { t with projectId := some pid }) s.tasks).1 } :
                Store).tasks =
            (updateFirst (fun u => u._id == tid)
              (fun t => { t with projectId := some pid }) s.tasks).1 from rfl,
          find?_updateFirst _ _ hpres, ht]
        rfl

/-- C6 witness: assigning task 1 to the missing project 2 fails with
NotFound leaving the store untouched; assigning it to the existing project 7
— which it already references — reports match count 1. -/
theorem C6_assignTaskToProject_witness :
    assignTaskToProject store1 idStr1 idStr2 = (.error .notFound, store1) ∧
    (∃ s', assignTaskToProject store1 idStr1 idStr7 = (.ok 1, s') ∧
      s'.projects = store1.projects ∧
      s'.tasks.find? (fun u => u._id == 1) =
        some { sampleTask with projectId := some 7 }) :=
  ⟨(C6_assignTaskToProject_spec store1 idStr1 idStr2 1 2 (by decide)
      (by decide)).1 (by decide),
   ((C6_assignTaskToProject_spec store1 idStr1 idStr7 1 7 (by decide)
      (by decide)).2 ⟨sampleProject, by decide, rfl⟩).2 sampleTask rfl⟩

/-! C8 -/

/-- C8: every successful `createTask`/`createProject` call inserts a document
with `createdAt` equal to `updatedAt`, under an id distinct from every id
already stored in either collection (freshness of generated ObjectIds is the
stated counter invariant). -/
theorem C8_create_fresh_id_and_equal_timestamps (s : Store) (now : Nat)
    (hfresh : (∀ t ∈ s.tasks, t._id < s.nextId) ∧
              (∀ p ∈ s.projects, p._id < s.nextId)) :
    (∀ dto id s1, createTask s dto now = (.ok id, s1) →
      ∃ d : Task, s1.tasks = s.tasks ++ [d] ∧ d._id = id ∧
        d.createdAt = d.updatedAt ∧
        (∀ t ∈ s.tasks, t._id ≠ id) ∧ (∀ p ∈ s.projects, p._id ≠ id)) ∧
    (∀ dto id s1, createProject s dto now = (.ok id, s1) →
      ∃ d : Project, s1.projects = s.projects ++ [d] ∧ d._id = id ∧
        d.createdAt = d.updatedAt ∧
        (∀ t ∈ s.tasks, t._id ≠ id) ∧ (∀ p ∈ s.projects, p._id ≠ id)) := by
  constructor
  · intro dto id s1 h
    rw [createTask] at h
    cases hf : s.tasks.find? (fun t => t.name == dto.name) with
    | some u => rw [hf] at h; exact Except.noConfusion (congrArg Prod.fst h)
    | none =>
      rw [hf] at h
      injection h with h1 h2
      injection h1 with h1
      subst h1
      subst h2
      refine ⟨_, rfl, rfl, rfl, ?_, ?_⟩
      · intro t ht
        exact Nat.ne_of_lt (hfresh.1 t ht)
      · intro p hp
        exact Nat.ne_of_lt (hfresh.2 p hp)
  · intro dto id s1 h
    rw [createProject] at h
    cases hf : s.projects.find? (fun p => p.name == dto.name) with
    | some u => rw [hf] at h; exact Except.noConfusion (congrArg Prod.fst h)
    | none =>
      rw [hf] at h
      injection h with h1 h2
      injection h1 with h1
      subst h1
      subst h2
      refine ⟨_, rfl, rfl, rfl, ?_, ?_⟩
      · intro t ht
        exact Nat.ne_of_lt (hfresh.1 t ht)
      · intro p hp
        exact Nat.ne_of_lt (hfresh.2 p hp)

/-- C8 witness: creating "beta" in `store1` (all stored ids are below the
counter 8) yields a document with equal timestamps and the fresh id 8. -/
theorem C8_create_witness :
    ∃ d : Task,
      (createTask store1
        { name := "beta", status := .TODO, startDate := 1, dueDate := 2,
          projectId := none } 5).2.tasks = store1.tasks ++ [d] ∧
      d._id = 8 ∧ d.createdAt = d.updatedAt ∧
      (∀ t ∈ store1.tasks, t._id ≠ 8) ∧
      (∀ p ∈ store1.projects, p._id ≠ 8) :=
  (C8_create_fresh_id_and_equal_timestamps store1 5
      ⟨by decide, by decide⟩).1
    { name := "beta", status := .TODO, startDate := 1, dueDate := 2,
      projectId := none } 8 _ (by decide)

/-! C9 -/

/-- A one-task store whose task is named "ab", for the search claims. -/
def searchStore : Store :=
  { tasks := [{ _id := 1, name := "ab", status := .TODO, startDate := 0,
                dueDate := 0, createdAt := 0, updatedAt := 0, doneDate := none,
                projectId := none }],
    projects := [], nextId := 2 }

/-- C9 counterexample: the query string is used as a regex pattern, not a
literal — searching for "." returns the task named "ab" although "ab" does
not contain "." as a substring, so `searchTasksByName` does not return
exactly the case-insensitive substring matches for every query string. -/
theorem C9_counterexample :
    searchTasks searchStore "." ≠
      searchStore.tasks.filter (fun t => containsCI ".".data t.name.data) ∧
    searchTasks searchStore "." = searchStore.tasks ∧
    searchStore.tasks.filter (fun t => containsCI ".".data t.name.data) = [] := by
  decide

/-- Over patterns without the `.` metacharacter, the modelled regex prefix
match is the literal case-insensitive prefix match. -/
theorem regexHere_eq_headMatchCI (pat : List Char)
    (h : ∀ c ∈ pat, c ≠ '.') :
    ∀ txt, regexHere pat txt = headMatchCI pat txt := by
  induction pat with
  | nil => intro txt; cases txt <;> rfl
  | cons p ps ih =>
    intro txt
    cases txt with
    | nil => rfl
    | cons c cs =>
      have hp : p ≠ '.' := h p (by simp)
      have ihs := ih (fun c hc => h c (by simp [hc])) cs
      simp [regexHere, headMatchCI, hp, ihs]

/-- Over patterns without the `.` metacharacter, the modelled regex search
is literal case-insensitive substring containment. -/
theorem regexTest_eq_containsCI (pat : List Char)
    (h : ∀ c ∈ pat, c ≠ '.') :
    ∀ txt, regexTest pat txt = containsCI pat txt := by
  intro txt
  induction txt with
  | nil => simp [regexTest, containsCI, regexHere_eq_headMatchCI pat h]
  | cons c cs ih =>
    simp [regexTest, containsCI, regexHere_eq_headMatchCI pat h, ih]

/-- C9 (amended): for every query string containing no regex metacharacter,
`searchTasksByName` returns exactly the tasks whose name contains the query
as a case-insensitive substring, in store order with no ranking (for query
strings with metacharacters the string acts as a regex pattern instead). -/
theorem C9_search_substring_spec (s : Store) (q : String)
    (hq : ∀ c ∈ q.data, isRegexMeta c = false) :
    searchTasks s q = s.tasks.filter (fun t => containsCI q.data t.name.data) := by
  unfold searchTasks
  apply List.filter_congr
  intro t _
  apply regexTest_eq_containsCI
  intro c hc hdot
  have hmeta := hq c hc
  rw [hdot] at hmeta
  exact absurd hmeta (by decide)

/-- C9 witness: searching "B" (no metacharacters) returns exactly the
case-insensitive substring matches. -/
theorem C9_search_witness :
    searchTasks searchStore "B" =
      searchStore.tasks.filter (fun t => containsCI "B".data t.name.data) :=
  C9_search_substring_spec searchStore "B" (by decide)

/-! C10 -/

/-- C10: the duplicate-name check on update does not exclude the document
being updated — patching a stored task or project with its own current name
fails with Conflict and leaves the store unchanged. -/
theorem C10_self_name_collision (s : Store) (idT idP : String)
    (t : Task) (pr : Project) (pt : UpdateTaskDto) (pp : UpdateProjectDto)
    (ht : t ∈ s.tasks) (hpr : pr ∈ s.projects)
    (hidT : parseObjectId idT = some t._id)
    (hidP : parseObjectId idP = some pr._id)
    (hnT : pt.name = some t.name) (hnP : pp.name = some pr.name) :
    updateTask s idT pt = (.error (.conflictTask pt.name), s) ∧
    updateProject s idP pp = (.error (.conflictProject pp.name), s) := by
  constructor
  · have hu : ∃ u, findTaskByName s.tasks pt.name = some u := by
      rw [hnT]
      exact Option.isSome_iff_exists.mp (List.find?_isSome.mpr ⟨t, ht, by simp⟩)
    rcases hu with ⟨u, hu⟩
    simp [updateTask, hidT, hu]
  · have hu : ∃ u, findProjectByName s.projects pp.name = some u := by
      rw [hnP]
      exact Option.isSome_iff_exists.mp
        (List.find?_isSome.mpr ⟨pr, hpr, by simp⟩)
    rcases hu with ⟨u, hu⟩
    simp [updateProject, hidP, hu]

/-- A project patch whose only present field is `name := "proj"` — the
stored project's own current name. -/
def ppProj : UpdateProjectDto :=
  { name := some "proj", description := none, startDate := none,
    endDate := none, updatedAt := none }

/-- C10 witness: re-submitting the stored task's and project's own names is
rejected with Conflict, leaving the store as it was. -/
theorem C10_self_name_collision_witness :
    updateTask store1 idStr1 ptAlpha =
      (.error (.conflictTask (some "alpha")), store1) ∧
    updateProject store1 idStr7 ppProj =
      (.error (.conflictProject (some "proj")), store1) :=
  C10_self_name_collision store1 idStr1 idStr7 sampleTask sampleProject
    ptAlpha ppProj (by decide) (by decide) (by decide) (by decide)
    (by decide) (by decide)

/-! C7 -/

/-- Name uniqueness: all task names pairwise distinct and all project names
pairwise distinct (case-sensitive exact match). -/
def namesDistinct (s : Store) : Prop :=
  (s.tasks.map Task.name).Nodup ∧ (s.projects.map Project.name).Nodup

/-- When the rewriting function preserves a projection, `updateOne` preserves
the projected list. -/
theorem map_updateFirst_of_preserve [DecidableEq α] (g : α → β)
    (p : α → Bool) (f : α → α) (hf : ∀ a, g (f a) = g a) (l : List α) :
    (updateFirst p f l).1.map g = l.map g := by
  induction l with
  | nil => simp [updateFirst]
  | cons x xs ih =>
    by_cases hx : p x = true
    · simp [updateFirst, hx, hf]
    · simp [updateFirst, hx, ih]

/-- Every projected value after `updateOne` with a constant-projection
rewrite was already present or is that constant. -/
theorem mem_map_updateFirst_const [DecidableEq α] (g : α → β)
    (p : α → Bool) (f : α → α) (c : β) (hf : ∀ a, g (f a) = c) (l : List α) :
    ∀ y ∈ (updateFirst p f l).1.map g, y ∈ l.map g ∨ y = c := by
  induction l with
  | nil => simp [updateFirst]
  | cons x xs ih =>
    by_cases hx : p x = true
    · have he : (updateFirst p f (x :: xs)).1.map g = c :: xs.map g := by
        simp [updateFirst, hx, hf]
      rw [he]
      intro y hy
      rcases List.mem_cons.mp hy with hc | hm
      · exact Or.inr hc
      · exact Or.inl (by simp [hm])
    · have he : (updateFirst p f (x :: xs)).1.map g =
          g x :: (updateFirst p f xs).1.map g := by
        simp [updateFirst, hx]
      rw [he]
      intro y hy
      rcases List.mem_cons.mp hy with hc | hm
      · exact Or.inl (by simp [hc])
      · rcases ih y hm with hm2 | hc2
        · exact Or.inl (by simp [hm2])
        · exact Or.inr hc2

/-- `updateOne` rewriting the projection to a value not present in the
collection preserves distinctness of the projected list. -/
theorem nodup_map_updateFirst_const [DecidableEq α] (g : α → β)
    (p : α → Bool) (f : α → α) (c : β) (hf : ∀ a, g (f a) = c) (l : List α)
    (hc : c ∉ l.map g) (h : (l.map g).Nodup) :
    ((updateFirst p f l).1.map g).Nodup := by
  induction l with
  | nil => simp [updateFirst]
  | cons x xs ih =>
    rw [List.map_cons, List.nodup_cons] at h
    rw [List.map_cons, List.mem_cons] at hc
    push_neg at hc
    by_cases hx : p x = true
    · have he : (updateFirst p f (x :: xs)).1.map g = c :: xs.map g := by
        simp [updateFirst, hx, hf]
      rw [he, List.nodup_cons]
      exact ⟨hc.2, h.2⟩
    · have he : (updateFirst p f (x :: xs)).1.map g =
          g x :: (updateFirst p f xs).1.map g := by
        simp [updateFirst, hx]
      rw [he, List.nodup_cons]
      refine ⟨?_, ih hc.2 h.2⟩
      intro hmem
      rcases mem_map_updateFirst_const g p f c hf xs (g x) hmem with hm | hceq
      · exact h.1 hm
      · exact hc.1 hceq.symm

/-- Clearing `projectId` on tasks does not change their names. -/
theorem map_name_clear_projectId (oid : Nat) (l : List Task) :
    (l.map (fun t => if t.projectId == some oid
        then { t with projectId := none } else t)).map Task.name =
      l.map Task.name := by
  induction l with
  | nil => rfl
  | cons x xs ih =>
    have hx : (if x.projectId == some oid
        then { x with projectId := none } else x).name = x.name := by
      by_cases hc : (x.projectId == some oid) = true <;> simp [hc]
    simp only [List.map_cons, hx, ih]

/-- `createTask` preserves name uniqueness. -/
theorem namesDistinct_createTask (s : Store) (dto : CreateTaskDto) (now : Nat)
    (h : namesDistinct s) : namesDistinct (createTask s dto now).2 := by
  rw [createTask]
  cases hf : s.tasks.find? (fun t => t.name == dto.name) with
  | some u => exact h
  | none =>
    refine ⟨?_, h.2⟩
    simp only [List.map_append, List.map_cons, List.map_nil]
    rw [List.nodup_append]
    refine ⟨h.1, by simp, ?_⟩
    intro a ha hb
    simp only [List.mem_cons, List.not_mem_nil, or_false] at hb
    subst hb
    rw [List.find?_eq_none] at hf
    rcases List.mem_map.mp ha with ⟨t, ht, hname⟩
    exact hf t ht (by simp [hname])

/-- `createProject` preserves name uniqueness. -/
theorem namesDistinct_createProject (s : Store) (dto : CreateProjectDto)
    (now : Nat) (h : namesDistinct s) :
    namesDistinct (createProject s dto now).2 := by
  rw [createProject]
  cases hf : s.projects.find? (fun p => p.name == dto.name) with
  | some u => exact h
  | none =>
    refine ⟨h.1, ?_⟩
    simp only [List.map_append, List.map_cons, List.map_nil]
    rw [List.nodup_append]
    refine ⟨h.2, by simp, ?_⟩
    intro a ha hb
    simp only [List.mem_cons, List.not_mem_nil, or_false] at hb
    subst hb
    rw [List.find?_eq_none] at hf
    rcases List.mem_map.mp ha with ⟨q, hq, hname⟩
    exact hf q hq (by simp [hname])

/-- `updateTask` preserves name uniqueness: a name change is rejected with
Conflict unless the new name is absent from the collection. -/
theorem namesDistinct_updateTask (s : Store) (id : String)
    (p : UpdateTaskDto) (h : namesDistinct s) :
    namesDistinct (updateTask s id p).2 := by
  rw [updateTask]
  cases hid : parseObjectId id with
  | none => exact h
  | some oid =>
    cases hf : findTaskByName s.tasks p.name with
    | some u => exact h
    | none =>
      refine ⟨?_, h.2⟩
      show ((updateFirst (fun t => t._id == oid)
        (fun t => applyTaskPatch t p) s.tasks).1.map Task.name).Nodup
      cases hn : p.name with
      | none =>
        rw [map_updateFirst_of_preserve Task.name _ _
          (fun a => by simp [applyTaskPatch, hn])]
        exact h.1
      | some n =>
        have hnot : n ∉ s.tasks.map Task.name := by
          rw [hn] at hf
          simp only [findTaskByName] at hf
          rw [List.find?_eq_none] at hf
          intro hmem
          rcases List.mem_map.mp hmem with ⟨t, ht, hname⟩
          exact hf t ht (by simp [hname])
        exact nodup_map_updateFirst_const Task.name _ _ n
          (fun a => by simp [applyTaskPatch, hn]) s.tasks hnot h.1

/-- `updateProject` preserves name uniqueness. -/
theorem namesDistinct_updateProject (s : Store) (id : String)
    (p : UpdateProjectDto) (h : namesDistinct s) :
    namesDistinct (updateProject s id p).2 := by
  rw [updateProject]
  cases hid : parseObjectId id with
  | none => exact h
  | some oid =>
    cases hf : findProjectByName s.projects p.name with
    | some u => exact h
    | none =>
      refine ⟨h.1, ?_⟩
      show ((updateFirst (fun q => q._id == oid)
        (fun q => applyProjectPatch q p) s.projects).1.map Project.name).Nodup
      cases hn : p.name with
      | none =>
        rw [map_updateFirst_of_preserve Project.name _ _
          (fun a => by simp [applyProjectPatch, hn])]
        exact h.2
      | some n =>
        have hnot : n ∉ s.projects.map Project.name := by
          rw [hn] at hf
          simp only [findProjectByName] at hf
          rw [List.find?_eq_none] at hf
          intro hmem
          rcases List.mem_map.mp hmem with ⟨q, hq, hname⟩
          exact hf q hq (by simp [hname])
        exact nodup_map_updateFirst_const Project.name _ _ n
          (fun a => by simp [applyProjectPatch, hn]) s.projects hnot h.2

/-- `updateTaskStatus` preserves name uniqueness (names untouched). -/
theorem namesDistinct_updateTaskStatus (s : Store) (id : String)
    (st : TaskStatus) (now : Nat) (h : namesDistinct s) :
    namesDistinct (updateTaskStatus s id st now).2 := by
  rw [updateTaskStatus]
  cases hid : parseObjectId id with
  | none => exact h
  | some oid =>
    refine ⟨?_, h.2⟩
    rw [map_updateFirst_of_preserve Task.name _ _
      (fun a => by cases st <;> rfl)]
    exact h.1

/-- `assignTaskToProject` preserves name uniqueness (names untouched). -/
theorem namesDistinct_assignTaskToProject (s : Store)
    (taskId projectId : String) (h : namesDistinct s) :
    namesDistinct (assignTaskToProject s taskId projectId).2 := by
  cases hp : parseObjectId projectId with
  | none => simp only [assignTaskToProject, hp]; exact h
  | some pid =>
    cases ht : parseObjectId taskId with
    | none => simp only [assignTaskToProject, hp, ht]; exact h
    | some tid =>
      cases hq : s.projects.find? (fun p => p._id == pid) with
      | none => simp only [assignTaskToProject, hp, ht, hq]; exact h
      | some q =>
        have he : (assignTaskToProject s taskId projectId).2 =
            { s with tasks := (updateFirst (fun t => t._id == tid)
              (fun t => { t with projectId := some pid }) s.tasks).1 } := by
          simp only [assignTaskToProject, hp, ht, hq]
        rw [he]
        refine ⟨?_, h.2⟩
        show ((updateFirst (fun t => t._id == tid)
          (fun t => { t with projectId := some pid }) s.tasks).1.map
            Task.name).Nodup
        rw [map_updateFirst_of_preserve Task.name (fun t => t._id == tid)
          (fun t => { t with projectId := some pid }) (fun a => rfl)]
        exact h.1

/-- `deleteTask` preserves name uniqueness. -/
theorem namesDistinct_deleteTask (s : Store) (id : String)
    (h : namesDistinct s) : namesDistinct (deleteTask s id).2 := by
  cases hid : parseObjectId id with
  | none => simp only [deleteTask, hid]; exact h
  | some oid =>
    have he : (deleteTask s id).2 =
        { s with tasks := (deleteFirst (fun t => t._id == oid) s.tasks).1 } := by
      simp only [deleteTask, hid]
    rw [he]
    exact ⟨h.1.sublist ((deleteFirst_sublist _ s.tasks).map Task.name), h.2⟩

/-- `deleteProject` (with its cascade) preserves name uniqueness. -/
theorem namesDistinct_deleteProject (s : Store) (id : String)
    (h : namesDistinct s) : namesDistinct (deleteProject s id).2 := by
  cases hid : parseObjectId id with
  | none => simp only [deleteProject, hid]; exact h
  | some oid =>
    have hproj : ((deleteFirst (fun p => p._id == oid) s.projects).1.map
        Project.name).Nodup :=
      h.2.sublist ((deleteFirst_sublist _ s.projects).map Project.name)
    by_cases hd : (deleteFirst (fun p => p._id == oid) s.projects).2 ≠ 0
    · have he : (deleteProject s id).2 =
          { s with
            projects := (deleteFirst (fun p => p._id == oid) s.projects).1,
            tasks := s.tasks.map (fun t => if t.projectId == some oid
              then { t with projectId := none } else t) } := by
        simp only [deleteProject, hid]
        rw [if_pos hd]
      rw [he]
      refine ⟨?_, hproj⟩
      show ((s.tasks.map (fun t => if t.projectId == some oid
          then { t with projectId := none } else t)).map Task.name).Nodup
      rw [map_name_clear_projectId]
      exact h.1
    · have he : (deleteProject s id).2 =
          { s with
            projects := (deleteFirst (fun p => p._id == oid) s.projects).1 } := by
        simp only [deleteProject, hid]
        rw [if_neg hd]
      rw [he]
      exact ⟨h.1, hproj⟩

/-- One repository call, for sequencing the preservation argument. -/
inductive Op where
  | createTaskOp (dto : CreateTaskDto) (now : Nat)
  | createProjectOp (dto : CreateProjectDto) (now : Nat)
  | updateTaskOp (id : String) (p : UpdateTaskDto)
  | updateProjectOp (id : String) (p : UpdateProjectDto)
  | setTaskStatusOp (id : String) (st : TaskStatus) (now : Nat)
  | assignOp (taskId projectId : String)
  | deleteTaskOp (id : String)
  | deleteProjectOp (id : String)

/-- The store left behind by one repository call (error or success). -/
def runOp (s : Store) : Op → Store
  | .createTaskOp dto now => (createTask s dto now).2
  | .createProjectOp dto now => (createProject s dto now).2
  | .updateTaskOp id p => (updateTask s id p).2
  | .updateProjectOp id p => (updateProject s id p).2
  | .setTaskStatusOp id st now => (updateTaskStatus s id st now).2
  | .assignOp taskId projectId => (assignTaskToProject s taskId projectId).2
  | .deleteTaskOp id => (deleteTask s id).2
  | .deleteProjectOp id => (deleteProject s id).2

/-- Every single repository call preserves name uniqueness. -/
theorem namesDistinct_runOp (s : Store) (op : Op) (h : namesDistinct s) :
    namesDistinct (runOp s op) := by
  cases op with
  | createTaskOp dto now => exact namesDistinct_createTask s dto now h
  | createProjectOp dto now => exact namesDistinct_createProject s dto now h
  | updateTaskOp id p => exact namesDistinct_updateTask s id p h
  | updateProjectOp id p => exact namesDistinct_updateProject s id p h
  | setTaskStatusOp id st now => exact namesDistinct_updateTaskStatus s id st now h
  | assignOp taskId projectId =>
    exact namesDistinct_assignTaskToProject s taskId projectId h
  | deleteTaskOp id => exact namesDistinct_deleteTask s id h
  | deleteProjectOp id => exact namesDistinct_deleteProject s id h

/-- Sequential composition of repository calls preserves name uniqueness. -/
theorem namesDistinct_runOps (ops : List Op) :
    ∀ s, namesDistinct s → namesDistinct (ops.foldl runOp s) := by
  induction ops with
  | nil => intro s h; exact h
  | cons op ops ih =>
    intro s h
    exact ih _ (namesDistinct_runOp s op h)

/-- C7: starting from a store with pairwise-distinct task names and
pairwise-distinct project names, any sequence of createTask, createProject,
updateTask, updateProject, setTaskStatus, assignTaskToProject, deleteTask,
deleteProject calls leaves the store with pairwise-distinct task and project
names; in particular a second create with an identical name fails with
Conflict and the store retains exactly one entity of that name. -/
theorem C7_name_uniqueness_invariant (s : Store) (h : namesDistinct s) :
    (∀ ops : List Op, namesDistinct (ops.foldl runOp s)) ∧
    (∀ dto now id s1, createTask s dto now = (.ok id, s1) →
      (∀ dto2 : CreateTaskDto, dto2.name = dto.name → ∀ now2,
        (createTask s1 dto2 now2).1 = .error (.conflictTask (some dto2.name))) ∧
      (s1.tasks.filter (fun t => t.name == dto.name)).length = 1) ∧
    (∀ dto now id s1, createProject s dto now = (.ok id, s1) →
      (∀ dto2 : CreateProjectDto, dto2.name = dto.name → ∀ now2,
        (createProject s1 dto2 now2).1 =
          .error (.conflictProject (some dto2.name))) ∧
      (s1.projects.filter (fun q => q.name == dto.name)).length = 1) := by
  refine ⟨fun ops => namesDistinct_runOps ops s h, ?_, ?_⟩
  · intro dto now id s1 hc
    rw [createTask] at hc
    cases hf : s.tasks.find? (fun t => t.name == dto.name) with
    | some u => rw [hf] at hc; exact Except.noConfusion (congrArg Prod.fst hc)
    | none =>
      rw [hf] at hc
      injection hc with h1 h2
      subst h2
      constructor
      · intro dto2 hname now2
        have hsome : (List.find? (fun t => t.name == dto2.name)
            (s.tasks ++
              [({ _id := s.nextId, name := dto.name, status := .TODO,
                  startDate := dto.startDate, dueDate := dto.dueDate,
                  createdAt := now, updatedAt := now, doneDate := none,
                  projectId := dto.projectId } : Task)])).isSome := by
          rw [List.find?_isSome]
          exact ⟨_, List.mem_append_right _ (List.mem_singleton.mpr rfl),
            by simp [hname]⟩
        rcases Option.isSome_iff_exists.mp hsome with ⟨u, hu⟩
        rw [createTask, hu]
      · have hnil : s.tasks.filter (fun t => t.name == dto.name) = [] := by
          rw [List.filter_eq_nil_iff]
          intro t ht
          rw [List.find?_eq_none] at hf
          exact hf t ht
        simp [List.filter_append, hnil]
  · intro dto now id s1 hc
    rw [createProject] at hc
    cases hf : s.projects.find? (fun q => q.name == dto.name) with
    | some u => rw [hf] at hc; exact Except.noConfusion (congrArg Prod.fst hc)
    | none =>
      rw [hf] at hc
      injection hc with h1 h2
      subst h2
      constructor
      · intro dto2 hname now2
        have hsome : (List.find? (fun q => q.name == dto2.name)
            (s.projects ++
              [({ _id := s.nextId, name := dto.name,
                  description := dto.description, startDate := dto.startDate,
                  endDate := dto.endDate, createdAt := now,
                  updatedAt := now } : Project)])).isSome := by
          rw [List.find?_isSome]
          exact ⟨_, List.mem_append_right _ (List.mem_singleton.mpr rfl),
            by simp [hname]⟩
        rcases Option.isSome_iff_exists.mp hsome with ⟨u, hu⟩
        rw [createProject, hu]
      · have hnil : s.projects.filter (fun q => q.name == dto.name) = [] := by
          rw [List.filter_eq_nil_iff]
          intro q hq
          rw [List.find?_eq_none] at hf
          exact hf q hq
        simp [List.filter_append, hnil]

/-- The task draft "a1" used by the C7 witness. -/
def dtoA1 : CreateTaskDto :=
  { name := "a1", status := .TODO, startDate := 0, dueDate := 0,
    projectId := none }

/-- The project draft "p1" used by the C7 witness. -/
def dtoP1 : CreateProjectDto :=
  { name := "p1", description := none, startDate := 0, endDate := 9 }

/-- C7 witness: from the empty store, creating "a1", attempting a duplicate
"a1" create, creating project "p1" and deleting a task leaves the names
pairwise distinct. -/
theorem C7_name_uniqueness_witness :
    namesDistinct (List.foldl runOp store0
      [.createTaskOp dtoA1 0, .createTaskOp dtoA1 1,
       .createProjectOp dtoP1 2, .deleteTaskOp idStr1]) :=
  (C7_name_uniqueness_invariant store0 ⟨by decide, by decide⟩).1 _

end Manager
